import Mathlib

/-!
Verification of the gitgame (Git Quest) repository's Command Sandbox Execution
Engine specification against the repository's code.

The repository ships the frontend terminal component
(src/frontend/src/components/terminal/Terminal.tsx) and the API testing
material (src/unnamed/part_004, src/backend/test_api.sh); the backend sandbox
engine itself (registry, validator, process runner, reaper) is not part of the
available sources, so those components are modelled from the specification and
marked as such in their doc comments.
-/

namespace GitGame

/-! ## Character-list string utilities

Executable replacements for the JavaScript string operations used by the
sources (`split(' ')`, `trim()`) and for substring search, defined by
structural recursion on `List Char` so that concrete instances evaluate.
-/

/-- JavaScript `s.split(' ')` on character lists: split at every single space
character, keeping empty fragments, with `acc` the (reversed) current
fragment. -/
def jsSplitAux : List Char → List Char → List (List Char)
  | [], acc => [acc.reverse]
  | c :: rest, acc =>
    if c = ' ' then acc.reverse :: jsSplitAux rest []
    else jsSplitAux rest (c :: acc)

/-- JavaScript `command.split(' ')` as used by `handleCommand` in
Terminal.tsx. -/
def jsSplit (s : String) : List String :=
  (jsSplitAux s.data []).map String.mk

/-- Remove leading and trailing whitespace from a character list. -/
def trimChars (cs : List Char) : List Char :=
  ((cs.dropWhile Char.isWhitespace).reverse.dropWhile Char.isWhitespace).reverse

/-- JavaScript `s.trim()` as used by the Terminal's Enter handler. -/
def jsTrim (s : String) : String :=
  ⟨trimChars s.data⟩

/-- Whether `pat` occurs at the start of `s`. -/
def startsWithChars : List Char → List Char → Bool
  | _, [] => true
  | [], _ :: _ => false
  | c :: s, p :: ps => c = p && startsWithChars s ps

/-- Whether `pat` occurs anywhere inside `s` as a contiguous substring. -/
def hasSubstrChars : List Char → List Char → Bool
  | [], pat => startsWithChars [] pat
  | c :: s, pat => startsWithChars (c :: s) pat || hasSubstrChars s pat

end GitGame

namespace GitGame.Terminal

/-!
## Frontend terminal embedding

Embedding of `handleCommand`, `handleGitCommand` and the Enter branch of the
`term.onData` handler from src/frontend/src/components/terminal/Terminal.tsx.
Every string below is the exact text written by the component, including its
ANSI colour escape sequences (`\x27` is the apostrophe character).
-/

/-- One observable effect of the terminal component while handling a command:
a `term.writeln` call, a `term.clear()` call, or (never emitted by
Terminal.tsx) an HTTP request to the sandbox API. -/
inductive TermEffect where
  | writeln (line : String)
  | clear
  | apiRequest (path : String)
  deriving DecidableEq

/-- Output of `handleGitCommand(term, [])`: the usage text (also produced for
the git subcommands `--help` and `-h`, whose case recurses with `[]`). -/
def gitUsage : List TermEffect :=
  [.writeln "\x1b[33musage: git <command> [<args>]\x1b[0m",
   .writeln "",
   .writeln "Common Git commands:",
   .writeln "  \x1b[32minit\x1b[0m        Initialize a repository",
   .writeln "  \x1b[32mstatus\x1b[0m      Show working tree status",
   .writeln "  \x1b[32madd\x1b[0m         Add file contents to index",
   .writeln "  \x1b[32mcommit\x1b[0m      Record changes to repository",
   .writeln "  \x1b[32mlog\x1b[0m         Show commit logs",
   .writeln "  \x1b[32mbranch\x1b[0m      List, create, or delete branches",
   .writeln "  \x1b[32mcheckout\x1b[0m    Switch branches or restore files",
   .writeln ""]

/-- Embedding of `handleGitCommand(term, args)` from Terminal.tsx. The switch
on `args[0]` is rendered as a chain of string comparisons; `today` stands for
`new Date().toDateString()` in the `git log` case. -/
def handleGitCommand (today : String) (args : List String) : List TermEffect :=
  match args with
  | [] => gitUsage
  | subcommand :: _ =>
    if subcommand = "--help" ∨ subcommand = "-h" then gitUsage
    else if subcommand = "init" then
      [.writeln "\x1b[32mInitialized empty Git repository in /gitquest/.git/\x1b[0m",
       .writeln ""]
    else if subcommand = "status" then
      [.writeln "On branch \x1b[36mmain\x1b[0m",
       .writeln "",
       .writeln "No commits yet",
       .writeln "",
       .writeln "nothing to commit (create/copy files and use \"git add\" to track)",
       .writeln ""]
    else if subcommand = "add" then
      (if args.length < 2 then
        [TermEffect.writeln "\x1b[31mNothing specified, nothing added.\x1b[0m"]
      else
        [TermEffect.writeln
          ("\x1b[32mAdded " ++ String.intercalate " " (args.drop 1) ++ "\x1b[0m")])
      ++ [.writeln ""]
    else if subcommand = "commit" then
      (if args.contains "-m" then
        [TermEffect.writeln "\x1b[36m[main 1a2b3c4]\x1b[0m Commit message",
         TermEffect.writeln "\x1b[32m 1 file changed, 1 insertion(+)\x1b[0m"]
      else
        [TermEffect.writeln "\x1b[31mAbort commit due to empty commit message.\x1b[0m"])
      ++ [.writeln ""]
    else if subcommand = "log" then
      [.writeln "\x1b[33mcommit 1a2b3c4d5e6f7g8h9i0j\x1b[0m (\x1b[36mHEAD -> main\x1b[0m)",
       .writeln "Author: Git Quest Player <player@gitquest.com>",
       .writeln ("Date:   " ++ today),
       .writeln "",
       .writeln "    Initial commit",
       .writeln ""]
    else if subcommand = "branch" then
      [.writeln "* \x1b[32mmain\x1b[0m",
       .writeln ""]
    else
      [.writeln ("\x1b[31mgit: \x27" ++ subcommand
          ++ "\x27 is not a git command. See \x27git --help\x27.\x1b[0m"),
       .writeln ""]

/-- Embedding of `handleCommand(term, command)` from Terminal.tsx: split on
single spaces, dispatch on the first word. -/
def handleCommand (today : String) (command : String) : List TermEffect :=
  match jsSplit command with
  | [] => []
  | cmd :: args =>
    if cmd = "git" then handleGitCommand today args
    else if cmd = "clear" then [.clear]
    else if cmd = "help" then
      [.writeln "\x1b[32mAvailable commands:\x1b[0m",
       .writeln "  \x1b[36mgit\x1b[0m         - Git version control",
       .writeln "  \x1b[36mclear\x1b[0m       - Clear terminal",
       .writeln "  \x1b[36mhelp\x1b[0m        - Show this help",
       .writeln ""]
    else
      [.writeln ("\x1b[31mCommand not found: " ++ cmd ++ "\x1b[0m"),
       .writeln "Type \x1b[36mhelp\x1b[0m for available commands.",
       .writeln ""]

/-- Result of the Enter branch of the `term.onData` handler: which command (if
any) was handed to `handleCommand`/`onCommand`, the effects produced, and the
new value of `currentLineRef`. -/
structure EnterOutcome where
  executedCommand : Option String
  effects : List TermEffect
  newCurrentLine : String
  deriving DecidableEq

/-- Embedding of the Enter (`code === 13`) branch of `term.onData` in
Terminal.tsx: trim the current line; a non-empty result is executed via
`handleCommand`, an empty one is skipped; either way the line buffer is
reset. -/
def onEnter (today : String) (currentLine : String) : EnterOutcome :=
  let command := jsTrim currentLine
  if command ≠ "" then
    { executedCommand := some command
      effects := handleCommand today command
      newCurrentLine := "" }
  else
    { executedCommand := none
      effects := []
      newCurrentLine := "" }

/-- Outputs of a sequence of commands typed into the terminal, in order. -/
def runHistory (today : String) (cmds : List String) : List (List TermEffect) :=
  cmds.map (handleCommand today)

end GitGame.Terminal

namespace GitGame.Engine

/-!
## Command Sandbox Execution Engine

Modelled from the spec: the backend sandbox engine (Sandbox Registry, Command
Validator, Process Runner, Workspace Store, Reaper) is not among the
repository's available sources — only its HTTP test scripts and API guides
are (src/backend/test_api.sh, src/unnamed/part_004) — so the definitions in
this namespace follow the specification text (spec.md §3–§7) directly.
-/

/-- Modelled from the spec: the error taxonomy of §7. -/
inductive EngineError where
  | allocationError
  | quotaExceededError
  | notFoundError
  | busyError
  | disallowedSyntaxError
  | commandNotAllowedError
  | spawnError
  | timeoutError
  deriving DecidableEq

/-- Modelled from the spec: sandbox lifecycle status (§3). -/
inductive SandboxStatus where
  | active
  | expired
  | destroyed
  deriving DecidableEq

/-- Modelled from the spec: one component of a filesystem path; workspace
directories allocated by the Workspace Store are named by their sandbox ID
(`sbid`), other components (such as the configured root's components) are
ordinary names. -/
inductive PathSeg where
  | named (s : String)
  | sbid (n : Nat)
  deriving DecidableEq

/-- Modelled from the spec: sandbox metadata owned by the Registry (§3). -/
structure Sandbox where
  id : Nat
  playerId : Nat
  lessonId : Option Nat
  workdir : List PathSeg
  createdAt : Nat
  lastActivity : Nat
  status : SandboxStatus
  deriving DecidableEq

/-- Modelled from the spec: the engine's configuration surface (§6). -/
structure EngineConfig where
  root : List PathSeg
  quotaPerPlayer : Nat
  timeBudgetMs : Nat
  outputCap : Nat
  idleThresholdMs : Nat
  deriving DecidableEq

/-- Modelled from the spec: the Registry's in-memory state — the map from ID
to sandbox metadata, the next fresh ID, and (for the "no process is spawned"
properties) the log of every process the Process Runner was ever asked to
spawn, newest first. -/
structure RegState where
  sandboxes : List Sandbox
  nextId : Nat
  spawnLog : List (Nat × String)
  deriving DecidableEq

/-- Modelled from the spec: the Workspace Store's on-disk view — the set of
currently existing workspace directories. -/
structure WorkspaceFS where
  dirs : List (List PathSeg)
  deriving DecidableEq

/-- Look a sandbox up by ID in the Registry's list. -/
def lookupSb : List Sandbox → Nat → Option Sandbox
  | [], _ => none
  | s :: t, sid => if s.id = sid then some s else lookupSb t sid

/-- Registry lookup by sandbox ID. -/
def findSandbox (st : RegState) (sid : Nat) : Option Sandbox :=
  lookupSb st.sandboxes sid

/-! ### Command Validator (spec §4.2) -/

/-- Modelled from the spec: the fixed allow-list of program names — `git` and
a small set of read-only filesystem inspection commands (§4.2, and the
commands exercised by src/backend/test_api.sh: `pwd`, `git`, `ls`). -/
def allowList : List String := ["git", "ls", "pwd", "cat"]

/-- Modelled from the spec: the shell metacharacters whose presence causes
immediate rejection — pipes, statement separators, backgrounding (which also
covers chaining with two ampersands), command substitution via backtick or
dollar-paren, and redirects (§4.2, §8). -/
def metacharSubstrings : List String := ["|", ";", "&", "\x60", "$(", ">", "<"]

/-- Whether the line contains any shell metacharacter. -/
def hasMetachar (s : String) : Bool :=
  metacharSubstrings.any (fun m => hasSubstrChars s.data m.data)

/-- Modelled from the spec: whitespace tokenization of the trimmed line into
program name and arguments (§4.2; quote-awareness is not needed by any
claim and is omitted). -/
def tokenize (line : String) : List String :=
  ((jsSplitAux (trimChars line.data) []).filter (fun t => t ≠ [])).map String.mk

/-- Decision of the Command Validator. -/
inductive ValidationResult where
  | emptyNoop
  | rejected (e : EngineError)
  | allowed (prog : String) (args : List String)
  deriving DecidableEq

/-- Modelled from the spec: the Command Validator — a pure decision function;
empty input is a no-op, metacharacters are rejected with
`DisallowedSyntaxError` before anything else, and the program name must be on
the allow-list, otherwise `CommandNotAllowedError` (§4.2). -/
def validate (line : String) : ValidationResult :=
  if jsTrim line = "" then .emptyNoop
  else if hasMetachar (jsTrim line) = true then .rejected .disallowedSyntaxError
  else
    match tokenize line with
    | [] => .emptyNoop
    | prog :: args =>
      if allowList.contains prog = true then .allowed prog args
      else .rejected .commandNotAllowedError

/-! ### Process Runner (spec §4.3) -/

/-- Modelled from the spec: what the underlying OS process would do if
spawned — exit with a code after some wall-clock time having written the
given streams, run past any deadline (writing the given partial streams), or
fail to start at all. -/
inductive ProcBehavior where
  | exits (exitCode : Nat) (timeMs : Nat) (stdout stderr : List Char)
  | runsForever (partialOut partialErr : List Char)
  | spawnFails
  deriving DecidableEq

/-- Standard output the process produces (fully, or up to the deadline). -/
def behStdout : ProcBehavior → List Char
  | .exits _ _ out _ => out
  | .runsForever out _ => out
  | .spawnFails => []

/-- Standard error the process produces (fully, or up to the deadline). -/
def behStderr : ProcBehavior → List Char
  | .exits _ _ _ err => err
  | .runsForever _ err => err
  | .spawnFails => []

/-- Modelled from the spec: the result record of one executed command (§3,
§4.3). `exitCode` is `none` when the process was killed by the timeout. -/
structure CommandResult where
  output : List Char
  stderr : List Char
  exitCode : Option Nat
  success : Bool
  timedOut : Bool
  truncated : Bool
  durationMs : Nat
  deriving DecidableEq

/-- Modelled from the spec: the final fate of the spawned process tree —
always reaped on every path out of the runner (§9, "spawn, wait-with-deadline,
always reap"). -/
inductive ProcFinal where
  | reaped
  deriving DecidableEq

/-- Modelled from the spec: the Process Runner (§4.3) — spawn the process; if
it has not exited when the time budget elapses, terminate it and report a
timeout result with the partial output captured so far; otherwise capture the
exit code, with success iff it is zero; streams are capped at the output size
cap and flagged as truncated; the runner fails the engine call itself only
when the process could not be spawned. -/
def runProcess (cfg : EngineConfig) (beh : ProcBehavior) :
    Except EngineError (CommandResult × ProcFinal) :=
  match beh with
  | .spawnFails => .error .spawnError
  | .runsForever out err =>
      .ok ({ output := out.take cfg.outputCap
             stderr := err.take cfg.outputCap
             exitCode := none
             success := false
             timedOut := true
             truncated := cfg.outputCap < out.length || cfg.outputCap < err.length
             durationMs := cfg.timeBudgetMs }, .reaped)
  | .exits code t out err =>
      if cfg.timeBudgetMs < t then
        .ok ({ output := out.take cfg.outputCap
               stderr := err.take cfg.outputCap
               exitCode := none
               success := false
               timedOut := true
               truncated := cfg.outputCap < out.length || cfg.outputCap < err.length
               durationMs := cfg.timeBudgetMs }, .reaped)
      else
        .ok ({ output := out.take cfg.outputCap
               stderr := err.take cfg.outputCap
               exitCode := some code
               success := code = 0
               timedOut := false
               truncated := cfg.outputCap < out.length || cfg.outputCap < err.length
               durationMs := t }, .reaped)

/-! ### Sandbox Registry (spec §4.4) and Workspace Store (spec §4.1) -/

/-- Number of non-destroyed sandboxes a player currently owns. -/
def ownedCount (st : RegState) (pid : Nat) : Nat :=
  st.sandboxes.countP
    (fun s => decide (s.playerId = pid) && decide (s.status ≠ SandboxStatus.destroyed))

/-- Modelled from the spec: `Create` (§4.4 together with §4.1) — fail with
`QuotaExceededError` when the caller already owns the configured maximum
number of concurrent sandboxes; otherwise allocate a fresh directory under
the configured root, named by the fresh sandbox ID (the Workspace Store
guarantees no path collision), and insert the new sandbox with status
`active`. -/
def Create (cfg : EngineConfig) (st : RegState) (now pid : Nat) (lid : Option Nat) :
    Except EngineError Nat × RegState :=
  if cfg.quotaPerPlayer ≤ ownedCount st pid then
    (.error .quotaExceededError, st)
  else
    let sid := st.nextId
    let sb : Sandbox :=
      { id := sid
        playerId := pid
        lessonId := lid
        workdir := cfg.root ++ [PathSeg.sbid sid]
        createdAt := now
        lastActivity := now
        status := .active }
    (.ok sid, { st with sandboxes := sb :: st.sandboxes, nextId := st.nextId + 1 })

/-- Set the last-activity timestamp of the sandbox with the given ID. -/
def updateActivity (st : RegState) (sid now : Nat) : RegState :=
  { st with
    sandboxes := st.sandboxes.map
      (fun s => if s.id = sid then { s with lastActivity := now } else s) }

/-- Set the status of the sandbox with the given ID. -/
def setStatus (st : RegState) (sid : Nat) (x : SandboxStatus) : RegState :=
  { st with
    sandboxes := st.sandboxes.map
      (fun s => if s.id = sid then { s with status := x } else s) }

/-- Modelled from the spec: `Execute` (§4.4) — fail with `NotFoundError` when
the sandbox is unknown or no longer active; otherwise delegate to the
Validator (returning its rejection untouched, with no state change and no
spawn), then to the Process Runner; when a process ran to a result, record
the spawn, update last-activity and return the `CommandResult` (an empty
line is the neutral nothing-executed outcome `none`). -/
def Execute (cfg : EngineConfig) (st : RegState) (now sid : Nat) (line : String)
    (beh : ProcBehavior) : Except EngineError (Option CommandResult) × RegState :=
  match findSandbox st sid with
  | none => (.error .notFoundError, st)
  | some sb =>
    if sb.status = .active then
      match validate line with
      | .emptyNoop => (.ok none, st)
      | .rejected e => (.error e, st)
      | .allowed prog _ =>
        match runProcess cfg beh with
        | .error e => (.error e, st)
        | .ok (r, _) =>
          (.ok (some r),
           { updateActivity st sid now with spawnLog := (sid, prog) :: st.spawnLog })
    else (.error .notFoundError, st)

/-- Modelled from the spec: `Status`/`GetStatus` (§4.4, §6) — a read-only
query returning lifecycle metadata, failing with `NotFoundError` when the ID
is unknown; the state is returned unchanged. -/
def GetStatus (st : RegState) (sid : Nat) :
    Except EngineError (SandboxStatus × Nat × Nat) × RegState :=
  match findSandbox st sid with
  | none => (.error .notFoundError, st)
  | some sb => (.ok (sb.status, sb.createdAt, sb.lastActivity), st)

/-- Modelled from the spec: `Destroy`/`Cleanup` (§4.4) — on a live sandbox,
set its status to `destroyed` (the terminal state, kept as a tombstone so a
repeated call answers `NotFoundError`) and have the Workspace Store reclaim
its directory; on an unknown or already destroyed ID, fail with
`NotFoundError` leaving all state unchanged. -/
def Destroy (st : RegState) (fs : WorkspaceFS) (sid : Nat) :
    Except EngineError Bool × RegState × WorkspaceFS :=
  match findSandbox st sid with
  | none => (.error .notFoundError, st, fs)
  | some sb =>
    if sb.status = .destroyed then (.error .notFoundError, st, fs)
    else
      (.ok true,
       setStatus st sid .destroyed,
       { dirs := fs.dirs.filter (fun d => d ≠ sb.workdir) })

/-- Modelled from the spec: one Reaper pass (§4.5) — destroy every live
sandbox whose last-activity lies beyond the idle threshold, reclaim its
directory, and reclaim orphaned directories that no live registry entry
owns. -/
def reaperSweep (cfg : EngineConfig) (st : RegState) (fs : WorkspaceFS) (now : Nat) :
    RegState × WorkspaceFS :=
  let st' : RegState :=
    { st with
      sandboxes := st.sandboxes.map
        (fun s =>
          if s.status ≠ SandboxStatus.destroyed ∧ s.lastActivity + cfg.idleThresholdMs < now
          then { s with status := .destroyed }
          else s) }
  (st',
   { dirs := fs.dirs.filter
      (fun d => st'.sandboxes.any
        (fun s => decide (s.status ≠ SandboxStatus.destroyed) && decide (s.workdir = d))) })

/-! ### Registry invariants (spec §3, §4.1, §8) -/

/-- Internal registry invariant: sandbox IDs are bounded by the next fresh ID
and pairwise distinct, and every workspace directory is the child of the
configured root named by its sandbox's ID (the Workspace Store's allocation
discipline). -/
abbrev GoodState (cfg : EngineConfig) (st : RegState) : Prop :=
  (∀ sb ∈ st.sandboxes, sb.id < st.nextId) ∧
  (st.sandboxes.map Sandbox.id).Nodup ∧
  (∀ sb ∈ st.sandboxes, sb.workdir = cfg.root ++ [PathSeg.sbid sb.id])

/-- The claimed workspace-path property: every workspace path is a child of
the single configured root, and the paths of distinct sandboxes that are not
destroyed are pairwise distinct (so a path is never shared with, or reused
by, another sandbox while its owner is live). -/
abbrev WorkdirDistinct (cfg : EngineConfig) (st : RegState) : Prop :=
  (∀ sb ∈ st.sandboxes, ∃ seg, sb.workdir = cfg.root ++ [seg]) ∧
  (∀ sb1 ∈ st.sandboxes, ∀ sb2 ∈ st.sandboxes, sb1.id ≠ sb2.id →
    sb1.status ≠ SandboxStatus.destroyed → sb2.status ≠ SandboxStatus.destroyed →
    sb1.workdir ≠ sb2.workdir)

/-! ### Per-sandbox mutual exclusion (spec §5)

Modelled from the spec: the Registry serializes access per sandbox with a
per-instance lock; a concurrent `Execute` on a locked sandbox is rejected
with `BusyError`, and different sandboxes run fully in parallel. The model is
a labelled transition system over the set of in-flight commands.
-/

/-- Modelled from the spec: the instantaneous concurrency state — the
in-flight commands, each identified by a caller's call ID paired with the
sandbox ID it executes against. -/
structure ConcState where
  running : List (Nat × Nat)
  deriving DecidableEq

/-- No in-flight command holds the given sandbox's lock. -/
abbrev lockFree (s : ConcState) (sid : Nat) : Prop :=
  ∀ p ∈ s.running, p.2 ≠ sid

/-- Modelled from the spec: the observable scheduling events — a call starts
running a command against a sandbox, a call is rejected with `BusyError`
because the sandbox's lock is held, or a running command finishes and
releases the lock. -/
inductive ConcEvent where
  | start (call sid : Nat)
  | rejectBusy (call sid : Nat)
  | finish (call sid : Nat)
  deriving DecidableEq

/-- Modelled from the spec: the transition relation — `start` requires the
sandbox's lock to be free and acquires it; `rejectBusy` is possible exactly
when some in-flight command holds the lock and changes nothing; `finish`
removes an in-flight command. -/
inductive ConcStep : ConcState → ConcEvent → ConcState → Prop where
  | start (s : ConcState) (call sid : Nat) :
      lockFree s sid → ConcStep s (.start call sid) ⟨(call, sid) :: s.running⟩
  | rejectBusy (s : ConcState) (call sid : Nat) (p : Nat × Nat) :
      p ∈ s.running → p.2 = sid → ConcStep s (.rejectBusy call sid) s
  | finish (s : ConcState) (call sid : Nat) :
      (call, sid) ∈ s.running → ConcStep s (.finish call sid) ⟨s.running.erase (call, sid)⟩

/-- States reachable from the idle engine (no command in flight). -/
inductive ConcReachable : ConcState → Prop where
  | init : ConcReachable ⟨[]⟩
  | step {s s' : ConcState} {e : ConcEvent} :
      ConcReachable s → ConcStep s e s' → ConcReachable s'

/-- At most one in-flight command per sandbox: the sandbox IDs of the running
commands are pairwise distinct. -/
abbrev MutexInv (s : ConcState) : Prop :=
  (s.running.map Prod.snd).Nodup

/-! ### The execute endpoint's documented response (src/unnamed/part_004) -/

/-- The expected response of `POST /sandbox/SANDBOX_ID/execute` exactly as
documented in the repository's API testing guide (src/unnamed/part_004,
"Execute Command in Sandbox — Expected Response"), as field-name/value
pairs in order. -/
def exampleExecuteResponse : List (String × String) :=
  [("output", "/tmp/gitquest_sandboxes/abc123..."),
   ("success", "true"),
   ("execution_time_ms", "15.2")]

/-- The field names of the documented execute response, in order. -/
def executeResponseFields : List String :=
  exampleExecuteResponse.map Prod.fst

/-- The field set C7 claims for the execute result record. -/
def claimedExecuteFields : List String :=
  ["output", "stderr", "success", "exit_code", "execution_time_ms"]

/-! ### Concrete instances used by the witnesses -/

/-- A concrete engine configuration (root as in the test guide's
`/tmp/gitquest_sandboxes`, 5 s budget, 64 KB cap, 30 min idle threshold). -/
def cfgW : EngineConfig :=
  { root := [.named "tmp", .named "gitquest_sandboxes"]
    quotaPerPlayer := 3
    timeBudgetMs := 5000
    outputCap := 65536
    idleThresholdMs := 1800000 }

/-- A concrete live sandbox for player 1. -/
def sbW : Sandbox :=
  { id := 0
    playerId := 1
    lessonId := none
    workdir := cfgW.root ++ [PathSeg.sbid 0]
    createdAt := 0
    lastActivity := 40
    status := .active }

/-- A concrete registry state holding just `sbW`. -/
def stW : RegState :=
  { sandboxes := [sbW], nextId := 1, spawnLog := [] }

/-- A concrete workspace store holding the directory of `sbW`. -/
def fsW : WorkspaceFS :=
  { dirs := [sbW.workdir] }

/-- A concrete process behavior: exits immediately with code 0. -/
def behW : ProcBehavior :=
  .exits 0 15 ['o', 'k'] []

/-- Modelled from the spec: the process has not exited when the time budget
elapses — it runs past the deadline, or would only exit after it. -/
def outlivesBudget (cfg : EngineConfig) : ProcBehavior → Prop
  | .exits _ t _ _ => cfg.timeBudgetMs < t
  | .runsForever _ _ => True
  | .spawnFails => False

end GitGame.Engine

namespace GitGame.Terminal

theorem apiRequest_not_mem_gitUsage (p : String) :
    TermEffect.apiRequest p ∉ gitUsage := by
  simp [gitUsage]

theorem apiRequest_not_mem_handleGitCommand (today : String) (args : List String)
    (p : String) : TermEffect.apiRequest p ∉ handleGitCommand today args := by
  cases args with
  | nil => exact apiRequest_not_mem_gitUsage p
  | cons sub rest =>
    simp only [handleGitCommand]
    split_ifs <;> simp [gitUsage]

theorem apiRequest_not_mem_handleCommand (today : String) (c : String)
    (p : String) : TermEffect.apiRequest p ∉ handleCommand today c := by
  cases h : jsSplit c with
  | nil => simp [handleCommand, h]
  | cons cmd args =>
    simp only [handleCommand, h]
    split_ifs
    case _ => exact apiRequest_not_mem_handleGitCommand today args p
    all_goals simp

/-- C9: for the empty input line (and inputs that are all whitespace), the
Enter handler of Terminal.tsx is a no-op: no command is handed to
`handleCommand`/`onCommand` (so nothing is executed and no process can be
spawned), no error effect is written, and the outcome is the neutral
"nothing executed" record with an empty effect list and a reset line
buffer. -/
theorem c9_empty_input_noop (today line : String) (h : jsTrim line = "") :
    onEnter today line =
      { executedCommand := none, effects := [], newCurrentLine := "" } := by
  simp [onEnter, h]

/-- Witness for C9 at the concrete all-whitespace input `"   "`. -/
theorem c9_empty_input_noop_witness :
    jsTrim "   " = "" ∧
    onEnter "Mon Oct 06 2025" "   " =
      { executedCommand := none, effects := [], newCurrentLine := "" } :=
  ⟨by decide, c9_empty_input_noop "Mon Oct 06 2025" "   " (by decide)⟩

/-- C10: the output displayed by the frontend Terminal component is computed
by the fixed local function `handleCommand` with no request to the sandbox
API (no `apiRequest` effect is ever produced), and the output of a command
does not depend on previously executed commands: the output list of a history
is the elementwise image of `handleCommand`, so appending a command to any
history yields exactly `handleCommand` of that command; in particular
`git init` always prints the fixed "Initialized empty Git repository in
/gitquest/.git/" line and `git status` always prints the same fixed
"nothing to commit" text, even before any `git init`. -/
theorem c10_terminal_output_local_stateless (today : String) (hist : List String)
    (c : String) :
    runHistory today (hist ++ [c]) = runHistory today hist ++ [handleCommand today c] ∧
    handleCommand today "git init" =
      [.writeln "\x1b[32mInitialized empty Git repository in /gitquest/.git/\x1b[0m",
       .writeln ""] ∧
    handleCommand today "git status" =
      [.writeln "On branch \x1b[36mmain\x1b[0m",
       .writeln "",
       .writeln "No commits yet",
       .writeln "",
       .writeln "nothing to commit (create/copy files and use \"git add\" to track)",
       .writeln ""] ∧
    ∀ p, TermEffect.apiRequest p ∉ handleCommand today c := by
  refine ⟨by simp [runHistory], rfl, rfl, fun p => apiRequest_not_mem_handleCommand today c p⟩

/-- Witness for C10 at a concrete date, history and command. -/
theorem c10_terminal_output_local_stateless_witness :
    runHistory "Mon Oct 06 2025" (["help", "git status"] ++ ["git init"]) =
      runHistory "Mon Oct 06 2025" ["help", "git status"]
        ++ [handleCommand "Mon Oct 06 2025" "git init"] ∧
    handleCommand "Mon Oct 06 2025" "git init" =
      [.writeln "\x1b[32mInitialized empty Git repository in /gitquest/.git/\x1b[0m",
       .writeln ""] :=
  ⟨(c10_terminal_output_local_stateless "Mon Oct 06 2025" ["help", "git status"]
      "git init").1,
   (c10_terminal_output_local_stateless "Mon Oct 06 2025" ["help", "git status"]
      "git init").2.1⟩


end GitGame.Terminal

namespace GitGame.Engine

/-! ### Validator lemmas -/

theorem tokenize_of_trim_empty (line : String) (h : jsTrim line = "") :
    tokenize line = [] := by
  have hc : trimChars line.data = [] := congrArg String.data h
  rw [tokenize, hc]
  rfl

theorem validate_not_allowed (line prog : String) (args : List String)
    (hmeta : hasMetachar (jsTrim line) = false)
    (htok : tokenize line = prog :: args)
    (hallow : allowList.contains prog = false) :
    validate line = .rejected .commandNotAllowedError := by
  have htrim : ¬ jsTrim line = "" := by
    intro h
    rw [tokenize_of_trim_empty line h] at htok
    exact List.noConfusion htok
  rw [validate, if_neg htrim, if_neg (by simp [hmeta]), htok]
  have hne : ¬ (allowList.contains prog = true) := by
    rw [hallow]
    exact Bool.false_ne_true
  exact if_neg hne

theorem validate_metachar (line : String)
    (hmeta : hasMetachar (jsTrim line) = true) :
    validate line = .rejected .disallowedSyntaxError := by
  have htrim : ¬ jsTrim line = "" := by
    intro h
    rw [h] at hmeta
    exact Bool.noConfusion ((by decide : hasMetachar "" = false) ▸ hmeta)
  rw [validate, if_neg htrim, if_pos hmeta]

/-! ### C1 and C2 -/

/-- C1: for every command whose program name is not in the fixed allow-list
(and that carries no shell metacharacter, which the Validator checks first),
`Execute` on a live sandbox fails with `CommandNotAllowedError` and returns
the registry state exactly as it was — no process is spawned (the spawn log
is untouched) and the sandbox's last-activity timestamp keeps the value it
had before the call. -/
theorem c1_not_allowed_rejected_state_unchanged (cfg : EngineConfig)
    (st : RegState) (now sid : Nat) (line prog : String) (args : List String)
    (beh : ProcBehavior) (sb : Sandbox)
    (hfind : findSandbox st sid = some sb)
    (hact : sb.status = .active)
    (hmeta : hasMetachar (jsTrim line) = false)
    (htok : tokenize line = prog :: args)
    (hallow : allowList.contains prog = false) :
    Execute cfg st now sid line beh = (.error .commandNotAllowedError, st) := by
  have hv := validate_not_allowed line prog args hmeta htok hallow
  simp [Execute, hfind, hact, hv]

/-- Witness for C1: the disallowed program `rm` against a live concrete
sandbox leaves the registry state (hence its last-activity) unchanged. -/
theorem c1_not_allowed_rejected_state_unchanged_witness :
    Execute cfgW stW 99 0 "rm -rf notes" behW = (.error .commandNotAllowedError, stW) :=
  c1_not_allowed_rejected_state_unchanged cfgW stW 99 0 "rm -rf notes" "rm"
    ["-rf", "notes"] behW sbW (by decide) (by decide) (by decide) (by decide) (by decide)

/-- C2: for every input line containing a shell metacharacter (pipe,
semicolon, ampersand — which also covers chaining with two of them —
backtick, dollar-paren substitution, or a redirect), the Validator rejects it
with `DisallowedSyntaxError`, and no execution ever spawns a process for that
input: against every configuration, registry state, sandbox ID and process
behavior, `Execute` leaves the spawn log exactly as it was. -/
theorem c2_metachar_rejected_never_spawns (line : String)
    (hmeta : hasMetachar (jsTrim line) = true) :
    validate line = .rejected .disallowedSyntaxError ∧
    ∀ (cfg : EngineConfig) (st : RegState) (now sid : Nat) (beh : ProcBehavior),
      (Execute cfg st now sid line beh).2.spawnLog = st.spawnLog := by
  have hv := validate_metachar line hmeta
  refine ⟨hv, fun cfg st now sid beh => ?_⟩
  rw [Execute]
  cases hfind : findSandbox st sid with
  | none => rfl
  | some sb =>
    by_cases hact : sb.status = .active
    · simp [hact, hv]
    · simp [hact]

/-- Witness for C2 at the concrete piped command. -/
theorem c2_metachar_rejected_never_spawns_witness :
    validate "ls | cat secrets" = .rejected .disallowedSyntaxError ∧
    (Execute cfgW stW 99 0 "ls | cat secrets" behW).2.spawnLog = stW.spawnLog := by
  have h := c2_metachar_rejected_never_spawns "ls | cat secrets" (by decide)
  exact ⟨h.1, h.2 cfgW stW 99 0 behW⟩

/-! ### C3 and C4: the Process Runner -/

/-- C3: for every command whose process has not exited when the time budget
elapses, the runner terminates (reaps) the process tree and the caller still
receives a `CommandResult` — `Except.ok`, not an error — with success false,
the timeout indication set, no exit code, and whatever partial output was
captured (capped at the output cap). -/
theorem c3_timeout_reported_as_result (cfg : EngineConfig) (beh : ProcBehavior)
    (h : outlivesBudget cfg beh) :
    ∃ r : CommandResult,
      runProcess cfg beh = .ok (r, .reaped) ∧
      r.success = false ∧ r.timedOut = true ∧ r.exitCode = none ∧
      r.output = (behStdout beh).take cfg.outputCap ∧
      r.stderr = (behStderr beh).take cfg.outputCap := by
  cases beh with
  | spawnFails => exact absurd h (by simp [outlivesBudget])
  | runsForever out err => exact ⟨_, rfl, rfl, rfl, rfl, rfl, rfl⟩
  | exits code t out err =>
    refine ⟨{ output := out.take cfg.outputCap
              stderr := err.take cfg.outputCap
              exitCode := none
              success := false
              timedOut := true
              truncated := cfg.outputCap < out.length || cfg.outputCap < err.length
              durationMs := cfg.timeBudgetMs }, ?_, rfl, rfl, rfl, rfl, rfl⟩
    simp only [runProcess]
    exact if_pos h

/-- Witness for C3 at a process that never exits. -/
theorem c3_timeout_reported_as_result_witness :
    outlivesBudget cfgW (.runsForever ['h', 'i'] []) ∧
    ∃ r : CommandResult,
      runProcess cfgW (.runsForever ['h', 'i'] []) = .ok (r, .reaped) ∧
      r.success = false ∧ r.timedOut = true ∧ r.exitCode = none ∧
      r.output = (behStdout (.runsForever ['h', 'i'] [])).take cfgW.outputCap ∧
      r.stderr = (behStderr (.runsForever ['h', 'i'] [])).take cfgW.outputCap :=
  ⟨trivial, c3_timeout_reported_as_result cfgW (.runsForever ['h', 'i'] []) trivial⟩

/-- C4: for every spawned process that runs to completion within the budget,
the runner returns a result whose success flag is true exactly when the exit
code is 0 (a non-zero exit is still an `Except.ok` engine result); and the
runner fails the engine call itself only when the process could not be
spawned, in which case the error is `SpawnError`. -/
theorem c4_success_iff_exit_zero (cfg : EngineConfig) (beh : ProcBehavior) :
    (∀ code t out err, beh = .exits code t out err → t ≤ cfg.timeBudgetMs →
      ∃ r : CommandResult,
        runProcess cfg beh = .ok (r, .reaped) ∧
        r.exitCode = some code ∧ r.timedOut = false ∧
        (r.success = true ↔ code = 0)) ∧
    (∀ e, runProcess cfg beh = .error e → beh = .spawnFails ∧ e = .spawnError) := by
  constructor
  · intro code t out err hbeh hle
    subst hbeh
    refine ⟨{ output := out.take cfg.outputCap
              stderr := err.take cfg.outputCap
              exitCode := some code
              success := decide (code = 0)
              timedOut := false
              truncated := cfg.outputCap < out.length || cfg.outputCap < err.length
              durationMs := t }, ?_, rfl, rfl, by simp⟩
    simp only [runProcess]
    rw [if_neg (Nat.not_lt.mpr hle)]
  · intro e he
    cases beh with
    | spawnFails =>
      refine ⟨rfl, ?_⟩
      have : EngineError.spawnError = e := Except.error.inj he
      exact this.symm
    | runsForever out err => exact Except.noConfusion he
    | exits code t out err =>
      rw [runProcess] at he
      by_cases hlt : cfg.timeBudgetMs < t
      · rw [if_pos hlt] at he
        exact Except.noConfusion he
      · rw [if_neg hlt] at he
        exact Except.noConfusion he

/-- Witness for C4 at a process exiting with code 0 within the budget. -/
theorem c4_success_iff_exit_zero_witness :
    ∃ r : CommandResult,
      runProcess cfgW behW = .ok (r, .reaped) ∧
      r.exitCode = some 0 ∧ r.timedOut = false ∧
      (r.success = true ↔ 0 = 0) :=
  (c4_success_iff_exit_zero cfgW behW).1 0 15 ['o', 'k'] [] rfl (by decide)

/-! ### C5: Destroy is idempotent -/

theorem lookupSb_map (l : List Sandbox) (sid : Nat) (f : Sandbox → Sandbox)
    (hid : ∀ s, (f s).id = s.id) :
    lookupSb (l.map f) sid = (lookupSb l sid).map f := by
  induction l with
  | nil => rfl
  | cons s t ih =>
    simp only [List.map_cons, lookupSb, hid]
    by_cases h : s.id = sid
    · simp [h]
    · simp [h, ih]

theorem lookupSb_id (l : List Sandbox) (sid : Nat) (sb : Sandbox)
    (h : lookupSb l sid = some sb) : sb.id = sid := by
  induction l with
  | nil => exact Option.noConfusion h
  | cons s t ih =>
    rw [lookupSb] at h
    by_cases hs : s.id = sid
    · rw [if_pos hs] at h
      exact Option.some.inj h ▸ hs
    · rw [if_neg hs] at h
      exact ih h

theorem findSandbox_setStatus (st : RegState) (sid : Nat) (x : SandboxStatus)
    (sb : Sandbox) (h : findSandbox st sid = some sb) :
    findSandbox (setStatus st sid x) sid = some { sb with status := x } := by
  have hid := lookupSb_id st.sandboxes sid sb h
  have hmap := lookupSb_map st.sandboxes sid
    (fun s => if s.id = sid then { s with status := x } else s)
    (fun s => by by_cases hs : s.id = sid <;> simp [hs])
  rw [findSandbox] at h
  rw [findSandbox, setStatus, hmap, h]
  simp [hid]

/-- C5: Destroy is idempotent — the first `Destroy` of a live sandbox yields
`destroyed = true` and afterwards the sandbox's workspace directory no longer
exists in the Workspace Store; a second `Destroy` on the same ID answers
`NotFoundError` and leaves the registry state and the filesystem exactly
unchanged. -/
theorem c5_destroy_idempotent (st : RegState) (fs : WorkspaceFS) (sid : Nat)
    (sb : Sandbox) (hfind : findSandbox st sid = some sb)
    (hlive : sb.status ≠ SandboxStatus.destroyed) :
    ∃ st' fs',
      Destroy st fs sid = (.ok true, st', fs') ∧
      sb.workdir ∉ fs'.dirs ∧
      Destroy st' fs' sid = (.error .notFoundError, st', fs') := by
  refine ⟨setStatus st sid .destroyed,
    ⟨fs.dirs.filter (fun d => d ≠ sb.workdir)⟩, ?_, ?_, ?_⟩
  · simp [Destroy, hfind, hlive]
  · intro hmem
    rw [List.mem_filter] at hmem
    simp at hmem
  · have hf2 := findSandbox_setStatus st sid .destroyed sb hfind
    simp [Destroy, hf2]

/-- Witness for C5 at the concrete live sandbox `sbW`. -/
theorem c5_destroy_idempotent_witness :
    ∃ st' fs',
      Destroy stW fsW 0 = (.ok true, st', fs') ∧
      sbW.workdir ∉ fs'.dirs ∧
      Destroy st' fs' 0 = (.error .notFoundError, st', fs') :=
  c5_destroy_idempotent stW fsW 0 sbW (by decide) (by decide)

/-! ### C6: workspace-path invariants -/

theorem goodState_map (cfg : EngineConfig) (st : RegState) (f : Sandbox → Sandbox)
    (hid : ∀ s, (f s).id = s.id) (hw : ∀ s, (f s).workdir = s.workdir)
    (h : GoodState cfg st) :
    GoodState cfg { st with sandboxes := st.sandboxes.map f } := by
  obtain ⟨h1, h2, h3⟩ := h
  refine ⟨?_, ?_, ?_⟩
  · intro sb hsb
    obtain ⟨a, ha, rfl⟩ := List.mem_map.mp hsb
    rw [hid]
    exact h1 a ha
  · show ((st.sandboxes.map f).map Sandbox.id).Nodup
    rw [List.map_map, show (Sandbox.id ∘ f) = Sandbox.id from funext hid]
    exact h2
  · intro sb hsb
    obtain ⟨a, ha, rfl⟩ := List.mem_map.mp hsb
    rw [hw, hid]
    exact h3 a ha

theorem goodState_workdirDistinct (cfg : EngineConfig) (st : RegState)
    (h : GoodState cfg st) : WorkdirDistinct cfg st := by
  obtain ⟨-, -, h3⟩ := h
  refine ⟨fun sb hsb => ⟨.sbid sb.id, h3 sb hsb⟩, ?_⟩
  intro sb1 h1 sb2 h2 hne _ _
  rw [h3 sb1 h1, h3 sb2 h2]
  intro heq
  have hseg := List.append_cancel_left heq
  simp only [List.cons.injEq, PathSeg.sbid.injEq, and_true] at hseg
  exact hne hseg

theorem goodState_create (cfg : EngineConfig) (st : RegState) (now pid : Nat)
    (lid : Option Nat) (h : GoodState cfg st) :
    GoodState cfg (Create cfg st now pid lid).2 := by
  obtain ⟨h1, h2, h3⟩ := h
  rw [Create]
  by_cases hq : cfg.quotaPerPlayer ≤ ownedCount st pid
  · rw [if_pos hq]
    exact ⟨h1, h2, h3⟩
  · rw [if_neg hq]
    refine ⟨?_, ?_, ?_⟩
    · intro sb hsb
      rcases List.mem_cons.mp hsb with rfl | hsb
      · exact Nat.lt_succ_self _
      · exact Nat.lt_succ_of_lt (h1 sb hsb)
    · refine List.nodup_cons.mpr ⟨?_, h2⟩
      intro hmem
      obtain ⟨a, ha, hai⟩ := List.mem_map.mp hmem
      exact absurd (hai ▸ h1 a ha) (Nat.lt_irrefl _)
    · intro sb hsb
      rcases List.mem_cons.mp hsb with rfl | hsb
      · rfl
      · exact h3 sb hsb

theorem goodState_execute (cfg : EngineConfig) (st : RegState) (now sid : Nat)
    (line : String) (beh : ProcBehavior) (h : GoodState cfg st) :
    GoodState cfg (Execute cfg st now sid line beh).2 := by
  rw [Execute]
  split
  · exact h
  · split
    · split
      · exact h
      · exact h
      · split
        · exact h
        · exact goodState_map cfg st
            (fun s => if s.id = sid then { s with lastActivity := now } else s)
            (fun s => by by_cases hs : s.id = sid <;> simp [hs])
            (fun s => by by_cases hs : s.id = sid <;> simp [hs]) h
    · exact h

theorem goodState_getStatus (cfg : EngineConfig) (st : RegState) (sid : Nat)
    (h : GoodState cfg st) : GoodState cfg (GetStatus st sid).2 := by
  rw [GetStatus]
  cases hfind : findSandbox st sid with
  | none => exact h
  | some sb => exact h

theorem goodState_destroy (cfg : EngineConfig) (st : RegState) (fs : WorkspaceFS)
    (sid : Nat) (h : GoodState cfg st) : GoodState cfg (Destroy st fs sid).2.1 := by
  rw [Destroy]
  split
  · exact h
  · split
    · exact h
    · exact goodState_map cfg st
        (fun s => if s.id = sid then { s with status := .destroyed } else s)
        (fun s => by by_cases hs : s.id = sid <;> simp [hs])
        (fun s => by by_cases hs : s.id = sid <;> simp [hs]) h

theorem goodState_reaper (cfg : EngineConfig) (st : RegState) (fs : WorkspaceFS)
    (now : Nat) (h : GoodState cfg st) :
    GoodState cfg (reaperSweep cfg st fs now).1 := by
  exact goodState_map cfg st
    (fun s =>
      if s.status ≠ SandboxStatus.destroyed ∧ s.lastActivity + cfg.idleThresholdMs < now
      then { s with status := .destroyed }
      else s)
    (fun s => by by_cases hs : s.status ≠ SandboxStatus.destroyed ∧ s.lastActivity + cfg.idleThresholdMs < now <;> simp [hs])
    (fun s => by by_cases hs : s.status ≠ SandboxStatus.destroyed ∧ s.lastActivity + cfg.idleThresholdMs < now <;> simp [hs]) h

/-- C6: on every registry state satisfying the Workspace Store's allocation
discipline (`GoodState`), the workspace paths of sandboxes are pairwise
distinct (among any two distinct live sandboxes — so no path is shared with
or reused by another sandbox while its owner's status is other than
destroyed) and every path is a child of the single configured root; and this
discipline — hence the distinctness property — is preserved by each of the
five operations: Create, Execute, GetStatus, Destroy and the Reaper
sweep. -/
theorem c6_workspace_paths_invariant (cfg : EngineConfig) (st : RegState)
    (fs : WorkspaceFS) (now pid sid : Nat) (lid : Option Nat) (line : String)
    (beh : ProcBehavior) (h : GoodState cfg st) :
    WorkdirDistinct cfg st ∧
    (GoodState cfg (Create cfg st now pid lid).2 ∧
      WorkdirDistinct cfg (Create cfg st now pid lid).2) ∧
    (GoodState cfg (Execute cfg st now sid line beh).2 ∧
      WorkdirDistinct cfg (Execute cfg st now sid line beh).2) ∧
    (GoodState cfg (GetStatus st sid).2 ∧
      WorkdirDistinct cfg (GetStatus st sid).2) ∧
    (GoodState cfg (Destroy st fs sid).2.1 ∧
      WorkdirDistinct cfg (Destroy st fs sid).2.1) ∧
    (GoodState cfg (reaperSweep cfg st fs now).1 ∧
      WorkdirDistinct cfg (reaperSweep cfg st fs now).1) := by
  have hc := goodState_create cfg st now pid lid h
  have he := goodState_execute cfg st now sid line beh h
  have hg := goodState_getStatus cfg st sid h
  have hd := goodState_destroy cfg st fs sid h
  have hr := goodState_reaper cfg st fs now h
  exact ⟨goodState_workdirDistinct cfg st h,
    ⟨hc, goodState_workdirDistinct cfg _ hc⟩,
    ⟨he, goodState_workdirDistinct cfg _ he⟩,
    ⟨hg, goodState_workdirDistinct cfg _ hg⟩,
    ⟨hd, goodState_workdirDistinct cfg _ hd⟩,
    ⟨hr, goodState_workdirDistinct cfg _ hr⟩⟩

/-- Witness for C6 at the concrete one-sandbox registry state. -/
theorem c6_workspace_paths_invariant_witness :
    WorkdirDistinct cfgW stW ∧
    GoodState cfgW (Create cfgW stW 50 2 none).2 :=
  ⟨(c6_workspace_paths_invariant cfgW stW fsW 50 2 0 none "git status" behW
      (by decide)).1,
   ((c6_workspace_paths_invariant cfgW stW fsW 50 2 0 none "git status" behW
      (by decide)).2.1).1⟩

/-! ### C7: the documented execute response -/

/-- C7 counterexample: the claim that every successful `ExecuteCommand`
response contains exactly the fields output, stderr, success, exit_code and
execution_time_ms is false at the repository's own documented expected
response (src/unnamed/part_004): that record has no `stderr` and no
`exit_code` field, and its field list differs from the claimed one. -/
theorem c7_response_fields_counterexample :
    executeResponseFields.contains "stderr" = false ∧
    executeResponseFields.contains "exit_code" = false ∧
    executeResponseFields ≠ claimedExecuteFields := by
  decide

/-- C7 amended: the documented execute response record contains exactly the
fields output, success and execution_time_ms, in this order — stderr and
exit_code are not part of the record handed to the caller. -/
theorem c7_response_fields_amended :
    executeResponseFields = ["output", "success", "execution_time_ms"] := by
  decide

/-! ### C8: per-sandbox mutual exclusion -/

theorem mutexInv_step {s s' : ConcState} {e : ConcEvent}
    (h : MutexInv s) (hs : ConcStep s e s') : MutexInv s' := by
  cases hs with
  | start call sid hfree =>
    refine List.nodup_cons.mpr ⟨?_, h⟩
    intro hmem
    obtain ⟨p, hp, hps⟩ := List.mem_map.mp hmem
    exact hfree p hp hps
  | rejectBusy call sid p hp hps => exact h
  | finish call sid hmem =>
    exact List.Nodup.sublist ((List.erase_sublist _ _).map Prod.snd) h

theorem mutexInv_reachable (s : ConcState) (h : ConcReachable s) : MutexInv s := by
  induction h with
  | init => exact List.nodup_nil
  | step hr hs ih => exact mutexInv_step ih hs

theorem concStep_start_lock {s s' : ConcState} {e : ConcEvent} (h : ConcStep s e s') :
    ∀ call sid, e = .start call sid → lockFree s sid := by
  cases h with
  | start c d hfree =>
    intro call sid he
    injection he with h1 h2
    exact h2 ▸ hfree
  | rejectBusy c d p hp hps =>
    intro call sid he
    exact ConcEvent.noConfusion he
  | finish c d hmem =>
    intro call sid he
    exact ConcEvent.noConfusion he

theorem concStep_start_state {s s' : ConcState} {e : ConcEvent} (h : ConcStep s e s') :
    ∀ call sid, e = .start call sid → s' = ⟨(call, sid) :: s.running⟩ := by
  cases h with
  | start c d hfree =>
    intro call sid he
    injection he with h1 h2
    rw [h1, h2]
  | rejectBusy c d p hp hps =>
    intro call sid he
    exact ConcEvent.noConfusion he
  | finish c d hmem =>
    intro call sid he
    exact ConcEvent.noConfusion he

/-- C8: at most one command runs per sandbox at any instant — in every
reachable concurrency state the sandbox IDs of in-flight commands are
pairwise distinct (and with C6, so are their working directories); when two
`Execute` calls race on the same sandbox ID, after one acquires the lock the
other cannot start (`start` is not enabled) but is rejected with `BusyError`;
and against different sandbox IDs both calls can run in parallel, ending up
in flight simultaneously. -/
theorem c8_per_sandbox_mutual_exclusion :
    (∀ s : ConcState, ConcReachable s → MutexInv s) ∧
    (∀ (s s1 : ConcState) (call1 call2 sid : Nat),
      ConcStep s (.start call1 sid) s1 →
        (¬ ∃ s2, ConcStep s1 (.start call2 sid) s2) ∧
        ConcStep s1 (.rejectBusy call2 sid) s1) ∧
    (∀ (s : ConcState) (call1 call2 sid1 sid2 : Nat), sid1 ≠ sid2 →
      lockFree s sid1 → lockFree s sid2 →
      ∃ s1 s2, ConcStep s (.start call1 sid1) s1 ∧
        ConcStep s1 (.start call2 sid2) s2 ∧
        (call1, sid1) ∈ s2.running ∧ (call2, sid2) ∈ s2.running) := by
  refine ⟨mutexInv_reachable, ?_, ?_⟩
  · intro s s1 call1 call2 sid hstep
    have hs1 := concStep_start_state hstep call1 sid rfl
    constructor
    · rintro ⟨s2, hstep2⟩
      have hfree2 := concStep_start_lock hstep2 call2 sid rfl
      rw [hs1] at hfree2
      exact hfree2 (call1, sid) (List.mem_cons_self _ _) rfl
    · subst hs1
      exact ConcStep.rejectBusy _ call2 sid (call1, sid) (List.mem_cons_self _ _) rfl
  · intro s call1 call2 sid1 sid2 hne h1 h2
    refine ⟨⟨(call1, sid1) :: s.running⟩, ⟨(call2, sid2) :: (call1, sid1) :: s.running⟩,
      ConcStep.start s call1 sid1 h1, ConcStep.start _ call2 sid2 ?_, ?_, ?_⟩
    · intro p hp
      rcases List.mem_cons.mp hp with rfl | hp
      · exact hne
      · exact h2 p hp
    · exact List.mem_cons_of_mem _ (List.mem_cons_self _ _)
    · exact List.mem_cons_self _ _

/-- Witness for C8: a reachable state with one in-flight command satisfies
the mutual-exclusion invariant, and a second `start` on its sandbox is not
enabled. -/
theorem c8_per_sandbox_mutual_exclusion_witness :
    MutexInv ⟨[(0, 3)]⟩ ∧ ¬ ∃ s2, ConcStep ⟨[(0, 3)]⟩ (.start 1 3) s2 := by
  have h := c8_per_sandbox_mutual_exclusion
  have hstep : ConcStep ⟨[]⟩ (.start 0 3) ⟨[(0, 3)]⟩ :=
    ConcStep.start ⟨[]⟩ 0 3 (fun p hp => absurd hp (List.not_mem_nil p))
  exact ⟨h.1 _ (ConcReachable.step ConcReachable.init hstep), (h.2.1 _ _ 0 1 3 hstep).1⟩

end GitGame.Engine
